import Mathlib

/-!
Verification development for the dependency-analysis engine of the
`fe-analysis-skills` repository.

The JavaScript sources are shallowly embedded as Lean functions:

* `analyze-dependencies.js` (class `DependencyAnalyzer`): import extraction
  with its regex fallback, the unused / missing / phantom classification
  passes, and circular-dependency detection with severity assessment.
* the advanced analyzer (`AdvancedDependencyAnalyzer.detectCircularDependencies`)
  and the peer-dependency analyzer (`PeerDependencyAnalyzer`): per-package peer
  analysis, the cross-package conflict pass, and the slice of the `semver`
  library that those functions call (`satisfies`, `validRange`).

JavaScript `Map`s are modelled as insertion-ordered association lists, the
on-disk `node_modules` tree as a record of membership functions, and
`acorn.parse` plus the AST walk as an oracle parameter returning the
structurally-extracted imports, or `none` when parsing throws.  All string
processing is implemented by structural recursion over character lists so
that every definition evaluates inside the kernel.
-/

/-! ## Character-list string utilities -/

/-- Split a character list at every occurrence of the character `sep`. -/
def splitChar (sep : Char) : List Char → List (List Char)
  | [] => [[]]
  | c :: cs =>
    let r := splitChar sep cs
    if c = sep then [] :: r
    else
      match r with
      | [] => [[c]]
      | h :: t => (c :: h) :: t

/-- Split a character list at every character satisfying `p`. -/
def splitPred (p : Char → Bool) : List Char → List (List Char)
  | [] => [[]]
  | c :: cs =>
    let r := splitPred p cs
    if p c then [] :: r
    else
      match r with
      | [] => [[c]]
      | h :: t => (c :: h) :: t

/-- Index of the first occurrence of the sub-list `sub`, if any. -/
def findSub (sub : List Char) : List Char → Option Nat
  | [] => if sub = [] then some 0 else none
  | l@(_ :: cs) =>
    if sub.isPrefixOf l then some 0 else (findSub sub cs).map (· + 1)

/-- Split on a non-empty separator sub-list; `fuel` bounds the number of
separators (any fuel of at least the list length is enough). -/
def splitOnSub (sub : List Char) (fuel : Nat) (l : List Char) : List (List Char) :=
  match fuel with
  | 0 => [l]
  | Nat.succ fuel =>
    match findSub sub l with
    | none => [l]
    | some i => l.take i :: splitOnSub sub fuel (l.drop (i + sub.length))

/-- Parse a non-empty run of decimal digits. -/
def parseNatAux (acc : Nat) : List Char → Option Nat
  | [] => some acc
  | c :: cs => if c.isDigit then parseNatAux (acc * 10 + (c.toNat - 48)) cs else none

/-- Parse a numeral: all characters must be digits and there must be at
least one. -/
def parseNatChars (l : List Char) : Option Nat :=
  match l with
  | [] => none
  | _ => parseNatAux 0 l

/-- Drop leading and trailing whitespace. -/
def trimChars (l : List Char) : List Char :=
  ((l.dropWhile Char.isWhitespace).reverse.dropWhile Char.isWhitespace).reverse

/-- Model of JavaScript `String.prototype.startsWith`. -/
def strStartsWith (s pre : String) : Bool :=
  pre.toList.isPrefixOf s.toList

/-- Model of JavaScript `String.prototype.endsWith`. -/
def strEndsWith (s suf : String) : Bool :=
  suf.toList.isSuffixOf s.toList

/-- Model of JavaScript `String.prototype.includes`. -/
def strIncludes (s pat : String) : Bool :=
  (findSub pat.toList s.toList).isSome

/-! ## JavaScript `Map` as an insertion-ordered association list -/

/-- Model of JavaScript `Map.prototype.get` over an insertion-ordered
association list: the value of the first entry whose key equals `k`. -/
def mapGet {β : Type} (m : List (String × β)) (k : String) : Option β :=
  match m with
  | [] => none
  | e :: rest => if e.1 = k then some e.2 else mapGet rest k

/-- Model of JavaScript `Map.prototype.has`. -/
def mapHas {β : Type} (m : List (String × β)) (k : String) : Bool :=
  (mapGet m k).isSome

theorem mapGet_eq_some_mem {β : Type} {m : List (String × β)} {k : String} {v : β}
    (h : mapGet m k = some v) : (k, v) ∈ m := by
  induction m with
  | nil => simp [mapGet] at h
  | cons e rest ih =>
    obtain ⟨k1, v1⟩ := e
    rw [mapGet] at h
    by_cases he : k1 = k
    · simp only [he] at h
      simp at h
      simp [he, h]
    · simp [he] at h
      exact List.mem_cons_of_mem _ (ih h)

theorem mapHas_true_exists {β : Type} {m : List (String × β)} {k : String}
    (h : mapHas m k = true) : ∃ v, (k, v) ∈ m := by
  rw [mapHas] at h
  rcases Option.isSome_iff_exists.mp h with ⟨v, hv⟩
  exact ⟨v, mapGet_eq_some_mem hv⟩

theorem mapHas_false_not_mem {β : Type} {m : List (String × β)} {k : String} {v : β}
    (h : mapHas m k = false) : (k, v) ∉ m := by
  intro hmem
  induction m with
  | nil => simp at hmem
  | cons e rest ih =>
    rw [mapHas, mapGet] at h
    rcases List.mem_cons.mp hmem with he | hr
    · rw [← he] at h
      simp at h
    · by_cases hk : e.1 = k
      · simp [hk] at h
      · simp [hk] at h
        exact ih (by rw [mapHas]; simp [h]) hr

/-! ## The `semver` library, restricted to the fragment the analyzer calls

`PeerDependencyAnalyzer` calls `semver.satisfies(version, range)` and
`semver.validRange(rangeString)`.  The model implements node-semver's grammar
for the forms occurring in manifests analysed by the tool: `||`-separated
alternatives of whitespace-separated comparators, where a comparator is an
optional operator (`^`, `~`, `>=`, `<=`, `>`, `<`, `=`) followed by a 1-to-3
part version whose parts are numerals or `x`/`X`/`*` wildcards.  Caret, tilde
and x-range desugaring follows node-semver; the plain ordering comparators are
interpreted against the zero-filled version (exact for fully specified
versions, the only forms exercised here).  Pre-release and hyphen-range syntax
are outside the modelled fragment. -/

/-- A concrete semantic version (numeric triple). -/
structure SemVer where
  major : Nat
  minor : Nat
  patch : Nat
deriving DecidableEq, Repr

/-- Strict lexicographic order on versions, as `semver.lt`. -/
def semVerLt (a b : SemVer) : Bool :=
  a.major < b.major ||
    (a.major == b.major &&
      (a.minor < b.minor || (a.minor == b.minor && a.patch < b.patch)))

/-- Non-strict lexicographic order on versions. -/
def semVerLe (a b : SemVer) : Bool :=
  semVerLt a b || a == b

/-- Parse a fully specified numeric version `M.m.p`. -/
def parseVersionCore (s : String) : Option SemVer :=
  match splitChar '.' (trimChars s.toList) with
  | [a, b, c] =>
    match parseNatChars a, parseNatChars b, parseNatChars c with
    | some x, some y, some z => some ⟨x, y, z⟩
    | _, _, _ => none
  | _ => none

/-- One part of a (possibly partial) version: a numeral or an `x`/`X`/`*`
wildcard. -/
inductive VPart where
  | num (n : Nat)
  | wildcard
deriving DecidableEq, Repr

/-- Parse one version part. -/
def parseVPart (l : List Char) : Option VPart :=
  if l = ['x'] || l = ['X'] || l = ['*'] then some VPart.wildcard
  else (parseNatChars l).map VPart.num

/-- A partial version as written in a range: 1 to 3 parts. -/
structure PartialVer where
  major : VPart
  minor : Option VPart
  patch : Option VPart
deriving DecidableEq, Repr

/-- Parse a partial version (`16`, `16.x`, `16.8.0`, `*`, ...). -/
def parsePartialVer (l : List Char) : Option PartialVer :=
  match splitChar '.' l with
  | [a] => (parseVPart a).map fun m => ⟨m, none, none⟩
  | [a, b] =>
    match parseVPart a, parseVPart b with
    | some m, some n => some ⟨m, some n, none⟩
    | _, _ => none
  | [a, b, c] =>
    match parseVPart a, parseVPart b, parseVPart c with
    | some m, some n, some p => some ⟨m, some n, some p⟩
    | _, _, _ => none
  | _ => none

/-- Comparator operators of the modelled range grammar. -/
inductive CompOp where
  | caret
  | tilde
  | ge
  | le
  | gt
  | lt
  | eq
deriving DecidableEq, Repr

/-- A comparator: operator plus partial version. -/
structure Comparator where
  op : CompOp
  ver : PartialVer
deriving DecidableEq, Repr

/-- Parse one comparator token. A bare partial version means equality
(respectively an x-range). -/
def parseComparator (l : List Char) : Option Comparator :=
  match l with
  | '>' :: '=' :: rest => (parsePartialVer rest).map fun v => ⟨CompOp.ge, v⟩
  | '<' :: '=' :: rest => (parsePartialVer rest).map fun v => ⟨CompOp.le, v⟩
  | '>' :: rest => (parsePartialVer rest).map fun v => ⟨CompOp.gt, v⟩
  | '<' :: rest => (parsePartialVer rest).map fun v => ⟨CompOp.lt, v⟩
  | '=' :: rest => (parsePartialVer rest).map fun v => ⟨CompOp.eq, v⟩
  | '^' :: rest => (parsePartialVer rest).map fun v => ⟨CompOp.caret, v⟩
  | '~' :: rest => (parsePartialVer rest).map fun v => ⟨CompOp.tilde, v⟩
  | _ => (parsePartialVer l).map fun v => ⟨CompOp.eq, v⟩

/-- Normalise a partial version into its significant numeric parts: a
wildcard major erases everything, a missing or wildcard minor erases the
patch, and so on. -/
def normParts (p : PartialVer) : Option Nat × Option Nat × Option Nat :=
  match p.major with
  | VPart.wildcard => (none, none, none)
  | VPart.num M =>
    match p.minor with
    | none => (some M, none, none)
    | some VPart.wildcard => (some M, none, none)
    | some (VPart.num m) =>
      match p.patch with
      | none => (some M, some m, none)
      | some VPart.wildcard => (some M, some m, none)
      | some (VPart.num q) => (some M, some m, some q)

/-- Does concrete version `v` satisfy a single comparator?  Implements
node-semver's desugaring of caret, tilde and x-ranges into half-open
intervals. -/
def satisfiesComparator (v : SemVer) (c : Comparator) : Bool :=
  match normParts c.ver with
  | (none, _, _) =>
    match c.op with
    | CompOp.lt => false
    | CompOp.gt => false
    | _ => true
  | (some M, mOpt, pOpt) =>
    let lower : SemVer := ⟨M, mOpt.getD 0, pOpt.getD 0⟩
    match c.op with
    | CompOp.caret =>
      let upper : SemVer :=
        match mOpt with
        | none => ⟨M + 1, 0, 0⟩
        | some m =>
          if M > 0 then ⟨M + 1, 0, 0⟩
          else
            match pOpt with
            | none => ⟨0, m + 1, 0⟩
            | some q => if m > 0 then ⟨0, m + 1, 0⟩ else ⟨0, 0, q + 1⟩
      semVerLe lower v && semVerLt v upper
    | CompOp.tilde =>
      let upper : SemVer :=
        match mOpt with
        | none => ⟨M + 1, 0, 0⟩
        | some m => ⟨M, m + 1, 0⟩
      semVerLe lower v && semVerLt v upper
    | CompOp.eq =>
      match mOpt with
      | none => v.major == M
      | some m =>
        match pOpt with
        | none => v.major == M && v.minor == m
        | some q => v == (⟨M, m, q⟩ : SemVer)
    | CompOp.ge => semVerLe lower v
    | CompOp.gt => semVerLt lower v
    | CompOp.le => semVerLe v lower
    | CompOp.lt => semVerLt v lower

/-- Split a range alternative into whitespace-separated comparator tokens. -/
def splitWsTokens (l : List Char) : List (List Char) :=
  (splitPred Char.isWhitespace l).filter fun t => t ≠ []

/-- Parse one `||`-alternative: every token must be a valid comparator. -/
def parseComparators (alt : List Char) : Option (List Comparator) :=
  (splitWsTokens alt).mapM parseComparator

/-- Parse a whole range: `||`-separated alternatives. -/
def parseRange (s : String) : Option (List (List Comparator)) :=
  (splitOnSub ['|', '|'] (s.toList.length + 1) s.toList).mapM parseComparators

/-- Model of the truthiness of `semver.validRange`: the range parses
(node-semver returns the normalised range string, or `null` on a parse
failure; the analyzer only ever uses the result in boolean position, and the
internal fallback to the string `*` keeps an empty normalisation truthy). -/
def validRange (s : String) : Bool :=
  (parseRange s).isSome

/-- Satisfaction of a parsed range by a concrete version: some alternative
has all comparators satisfied. -/
def semverSatisfiesV (v : SemVer) (range : String) : Bool :=
  match parseRange range with
  | some alts => alts.any fun comps => comps.all (satisfiesComparator v)
  | none => false

/-- Model of `semver.satisfies(version, range)`: `false` when either the
version or the range does not parse (node-semver catches and returns
`false`). -/
def semverSatisfies (version range : String) : Bool :=
  match parseVersionCore version with
  | some v => semverSatisfiesV v range
  | none => false

example : semverSatisfies "16.9.0" "^16.8.0" = true := by decide
example : semverSatisfies "17.0.0" "^16.8.0" = false := by decide
example : validRange "^16.0.0 ^17.0.0" = true := by decide
example : validRange "^16.x ^16.x" = true := by decide
example : semverSatisfies "16.9.0" "^16.0.0 || ^17.0.0" = true := by decide

/-! ## `DependencyAnalyzer` (analyze-dependencies.js): data model

The analyzer's cross-file state: `importMap` maps each raw imported module
specifier to the list of usage records pushed by `analyzeFile`, and
`dependencyGraph` maps each analysed file to its extracted imports.  The
`warnings` array of the result object is part of the state so that theorems
can speak about it.  The declared-dependency map is the output of
`getDependencies` (name, version range and declaration bucket), and the
`node_modules` tree is abstracted by three membership functions keyed by
the imported name: whether `node_modules/<name>` exists, whether its
`package.json` exists, and the parse result of that manifest (`none` models a
read or `JSON.parse` failure). -/

/-- One usage record pushed into `importMap` by `analyzeFile`. -/
structure Usage where
  file : String
  line : Nat
  type : String
deriving DecidableEq, Repr

/-- One extracted import (`{module, type, line}` object). -/
structure ExtractedImport where
  module : String
  type : String
  line : Nat
deriving DecidableEq, Repr

/-- Declared-dependency info, one value of the `getDependencies` map. -/
structure DepInfo where
  version : String
  type : String
deriving DecidableEq, Repr

/-- Abstraction of the on-disk `node_modules` tree, keyed by imported name. -/
structure NodeModulesFs where
  dirExists : String → Bool
  pkgJsonExists : String → Bool
  pkgJsonParse : String → Option (Option String)

/-- The Node builtin-module list of `isBuiltinModule`. -/
def builtinModules : List String :=
  ["fs", "path", "http", "https", "url", "querystring", "util", "events",
   "stream", "buffer", "crypto", "os", "child_process", "cluster", "dgram",
   "dns", "net", "readline", "repl", "tls", "v8", "vm", "zlib", "assert",
   "console", "timers", "tty", "domain", "punycode", "constants", "module"]

/-- Model of `DependencyAnalyzer.isBuiltinModule`. -/
def isBuiltinModule (name : String) : Bool :=
  builtinModules.contains name

/-- The shared skip test of `findMissingDependencies` and
`findPhantomDependencies`: relative/absolute specifiers and Node builtins
are not external package names. -/
def skipImport (name : String) : Bool :=
  strStartsWith name "./" || strStartsWith name "../" ||
    strStartsWith name "/" || isBuiltinModule name

/-- Model of `DependencyAnalyzer.isDependencyUsed`: directly imported, or
one of the fixed indirect-usage patterns. -/
def isDependencyUsed (importMap : List (String × List Usage)) (depName : String) : Bool :=
  mapHas importMap depName ||
    (strStartsWith depName "@babel/" && mapHas importMap "babel") ||
    (strEndsWith depName "-loader" && mapHas importMap "webpack") ||
    (strStartsWith depName "@types/" && mapHas importMap "typescript") ||
    (strStartsWith depName "eslint-plugin-" && mapHas importMap "eslint") ||
    (strStartsWith depName "prettier-plugin-" && mapHas importMap "prettier")

/-- One entry of the `unused` result list. -/
structure UnusedEntry where
  name : String
  confidence : String
  reason : String
  type : String
  version : String
deriving DecidableEq, Repr

/-- Model of `DependencyAnalyzer.findUnusedDependencies`: the loop pushes an
entry for every declared dependency that `isDependencyUsed` rejects. -/
def findUnusedDependencies (dependencies : List (String × DepInfo))
    (importMap : List (String × List Usage)) : List UnusedEntry :=
  dependencies.filterMap fun d =>
    if isDependencyUsed importMap d.1 then none
    else some { name := d.1, confidence := "high", reason := "未在任何文件中导入",
                type := d.2.type, version := d.2.version }

/-- Model of `DependencyAnalyzer.guessDependencyType`. -/
def guessDependencyType (importName : String) : String :=
  if strStartsWith importName "@types/" then "devDependencies"
  else if strIncludes importName "test" || strIncludes importName "spec" then "devDependencies"
  else if strIncludes importName "lint" || strIncludes importName "format" then "devDependencies"
  else "dependencies"

/-- One entry of the `missing` result list (usage file paths kept verbatim;
the source projects them through `path.relative`, which does not affect
the imported name being classified). -/
structure MissingEntry where
  name : String
  usedIn : List String
  suggestDep : String
  confidence : String
deriving DecidableEq, Repr

/-- Model of `DependencyAnalyzer.findMissingDependencies`: the loop over
`importMap` with its `continue` guards, written as a `filterMap`. An imported
external undeclared name is reported missing exactly when
`node_modules/<name>` does not exist. -/
def findMissingDependencies (fs : NodeModulesFs) (dependencies : List (String × DepInfo))
    (importMap : List (String × List Usage)) : List MissingEntry :=
  importMap.filterMap fun e =>
    if skipImport e.1 then none
    else if mapHas dependencies e.1 then none
    else if fs.dirExists e.1 then none
    else some { name := e.1, usedIn := e.2.map (·.file),
                suggestDep := guessDependencyType e.1,
                confidence := if e.2.length > 2 then "high" else "medium" }

/-- Model of `DependencyAnalyzer.assessPhantomRisk` (the argument is the raw
`findDependencyChain` result, possibly `null`). -/
def assessPhantomRisk (chain : Option (List String)) : String :=
  match chain with
  | none => "high"
  | some l =>
    if l.length = 0 then "high"
    else if l.length = 1 then "low"
    else if l.length ≤ 3 then "medium"
    else "high"

/-- One entry of the `phantom` result list. -/
structure PhantomEntry where
  name : String
  chain : List String
  risk : String
  reason : String
  version : String
deriving DecidableEq, Repr

/-- Model of `DependencyAnalyzer.findPhantomDependencies`.  `chainFn`
abstracts `findDependencyChain` (a filesystem walk that never throws and
returns a chain or `null`).  An entry is pushed exactly when the module
directory and its `package.json` both exist and the manifest parses; a
`JSON.parse` failure is swallowed by the surrounding `try` (no push). -/
def findPhantomDependencies (fs : NodeModulesFs) (chainFn : String → Option (List String))
    (dependencies : List (String × DepInfo))
    (importMap : List (String × List Usage)) : List PhantomEntry :=
  importMap.filterMap fun e =>
    if skipImport e.1 then none
    else if mapHas dependencies e.1 then none
    else if fs.dirExists e.1 && fs.pkgJsonExists e.1 then
      (fs.pkgJsonParse e.1).map fun pjVersion =>
        { name := e.1, chain := (chainFn e.1).getD ["unknown"],
          risk := assessPhantomRisk (chainFn e.1),
          reason := "如果直接依赖升级或移除，此依赖可能不可用",
          version := pjVersion.getD "unknown" }
    else none

/-! Characterisations of membership in the missing / phantom name lists. -/

theorem mem_missing_names {fs : NodeModulesFs} {dependencies : List (String × DepInfo)}
    {importMap : List (String × List Usage)} {name : String} :
    name ∈ (findMissingDependencies fs dependencies importMap).map (·.name) ↔
      (∃ us, (name, us) ∈ importMap) ∧ skipImport name = false ∧
        mapHas dependencies name = false ∧ fs.dirExists name = false := by
  rw [findMissingDependencies, List.mem_map]
  constructor
  · rintro ⟨entry, hentry, hname⟩
    rcases List.mem_filterMap.mp hentry with ⟨e, he, hfe⟩
    by_cases h1 : skipImport e.1
    · simp [h1] at hfe
    · by_cases h2 : mapHas dependencies e.1
      · simp [h1, h2] at hfe
      · by_cases h3 : fs.dirExists e.1
        · simp [h1, h2, h3] at hfe
        · simp [h1, h2, h3] at hfe
          have hn : e.1 = name := by rw [← hname, ← hfe]
          rw [hn] at h1 h2 h3
          refine ⟨⟨e.2, ?_⟩, by simp [h1], by simp [h2], by simp [h3]⟩
          rw [← hn]
          exact he
  · rintro ⟨⟨us, hus⟩, h1, h2, h3⟩
    refine ⟨{ name := name, usedIn := us.map (·.file),
              suggestDep := guessDependencyType name,
              confidence := if us.length > 2 then "high" else "medium" }, ?_, rfl⟩
    exact List.mem_filterMap.mpr ⟨(name, us), hus, by simp [h1, h2, h3]⟩

theorem mem_phantom_names {fs : NodeModulesFs} {chainFn : String → Option (List String)}
    {dependencies : List (String × DepInfo)}
    {importMap : List (String × List Usage)} {name : String} :
    name ∈ (findPhantomDependencies fs chainFn dependencies importMap).map (·.name) ↔
      (∃ us, (name, us) ∈ importMap) ∧ skipImport name = false ∧
        mapHas dependencies name = false ∧ fs.dirExists name = true ∧
        fs.pkgJsonExists name = true ∧ (fs.pkgJsonParse name).isSome := by
  rw [findPhantomDependencies, List.mem_map]
  constructor
  · rintro ⟨entry, hentry, hname⟩
    rcases List.mem_filterMap.mp hentry with ⟨e, he, hfe⟩
    by_cases h1 : skipImport e.1
    · simp [h1] at hfe
    · by_cases h2 : mapHas dependencies e.1
      · simp [h1, h2] at hfe
      · by_cases h3 : fs.dirExists e.1 && fs.pkgJsonExists e.1
        · simp [h1, h2, h3] at hfe
          rcases hfe with ⟨pj, hpj, hent⟩
          have hn : e.1 = name := by rw [← hname, ← hent]
          rw [hn] at h1 h2 h3 hpj
          simp only [Bool.and_eq_true] at h3
          obtain ⟨h3a, h3b⟩ := h3
          refine ⟨⟨e.2, ?_⟩, by simp [h1], by simp [h2], h3a, h3b, by simp [hpj]⟩
          rw [← hn]
          exact he
        · simp [h1, h2, h3] at hfe
  · rintro ⟨⟨us, hus⟩, h1, h2, h3, h4, h5⟩
    rcases Option.isSome_iff_exists.mp h5 with ⟨pj, hpj⟩
    refine ⟨{ name := name, chain := (chainFn name).getD ["unknown"],
              risk := assessPhantomRisk (chainFn name),
              reason := "如果直接依赖升级或移除，此依赖可能不可用",
              version := pj.getD "unknown" }, ?_, rfl⟩
    exact List.mem_filterMap.mpr ⟨(name, us), hus, by simp [h1, h2, h3, h4, hpj]⟩

/-! ## Import extraction (`extractImports` / `extractImportsWithRegex`)

The regex fallback of `DependencyAnalyzer.extractImportsWithRegex` applies
four patterns to every line and pushes one import per matching pattern:

* `^import\s+.*?from\s+['"\x60]([^'"\x60]+)['"\x60]` (anchored, lazy gap),
* `import\s*\(\s*['"\x60]([^'"\x60]+)['"\x60]`,
* `require\s*\(\s*['"\x60]([^'"\x60]+)['"\x60]`,
* `require\.resolve\s*\(\s*['"\x60]([^'"\x60]+)['"\x60]`.

Each matcher below implements the leftmost-match semantics of
`String.prototype.match` for its pattern by direct character scanning. -/

/-- The three JavaScript quote characters `'`, `"` and the backtick. -/
def quoteChars : List Char :=
  [Char.ofNat 39, Char.ofNat 34, Char.ofNat 96]

/-- Is `c` one of the three quote characters? -/
def isQuoteChar (c : Char) : Bool :=
  quoteChars.contains c

/-- Consume an exact literal, returning the rest of the input. -/
def dropLiteral : List Char → List Char → Option (List Char)
  | [], rest => some rest
  | _ :: _, [] => none
  | p :: ps, c :: cs => if c = p then dropLiteral ps cs else none

/-- Consume `\s*`. -/
def dropWsStar : List Char → List Char
  | [] => []
  | c :: cs => if c.isWhitespace then dropWsStar cs else c :: cs

/-- Consume `\s+` (at least one whitespace character). -/
def dropWsPlus : List Char → Option (List Char)
  | [] => none
  | c :: cs => if c.isWhitespace then some (dropWsStar cs) else none

/-- Match `['"\x60]([^'"\x60]+)['"\x60]` and return the capture group. -/
def captureQuoted (l : List Char) : Option String :=
  match l with
  | [] => none
  | c :: cs =>
    if isQuoteChar c then
      let body := cs.takeWhile fun d => !isQuoteChar d
      match cs.drop body.length with
      | d :: _ => if body.length > 0 && isQuoteChar d then some (String.mk body) else none
      | [] => none
    else none

/-- Match `\s*\(\s*` followed by a quoted capture (the tail shared by the
call-style patterns). -/
def matchCallTail (l : List Char) : Option String :=
  match dropWsStar l with
  | '(' :: cs => captureQuoted (dropWsStar cs)
  | _ => none

/-- Try a pattern at every position, leftmost match first. -/
def scanFor (tryAt : List Char → Option String) : List Char → Option String
  | [] => tryAt []
  | l@(_ :: cs) =>
    match tryAt l with
    | some m => some m
    | none => scanFor tryAt cs

/-- The tail `from\s+` + quoted capture of the anchored import pattern,
searched left to right (the lazy `.*?` semantics). -/
def scanFromTail : List Char → Option String
  | [] => none
  | l@(_ :: cs) =>
    match (dropLiteral ['f', 'r', 'o', 'm'] l).bind dropWsPlus with
    | some rest => match captureQuoted rest with
      | some m => some m
      | none => scanFromTail cs
    | none => scanFromTail cs

/-- Pattern 1: `^import\s+.*?from\s+` + quoted capture (anchored). -/
def matchImportFrom (l : List Char) : Option String :=
  ((dropLiteral ['i', 'm', 'p', 'o', 'r', 't'] l).bind dropWsPlus).bind scanFromTail

/-- Pattern 2: `import\s*\(\s*` + quoted capture (unanchored). -/
def matchDynamicImport (l : List Char) : Option String :=
  scanFor (fun t => (dropLiteral ['i', 'm', 'p', 'o', 'r', 't'] t).bind matchCallTail) l

/-- Pattern 3: `require\s*\(\s*` + quoted capture (unanchored). -/
def matchRequire (l : List Char) : Option String :=
  scanFor (fun t => (dropLiteral ['r', 'e', 'q', 'u', 'i', 'r', 'e'] t).bind matchCallTail) l

/-- Pattern 4: `require\.resolve\s*\(\s*` + quoted capture (unanchored). -/
def matchRequireResolve (l : List Char) : Option String :=
  scanFor (fun t =>
    (dropLiteral ['r', 'e', 'q', 'u', 'i', 'r', 'e', '.',
                  'r', 'e', 's', 'o', 'l', 'v', 'e'] t).bind matchCallTail) l

/-- Model of `DependencyAnalyzer.extractImportsWithRegex`: split the content
on newlines and, for every line, push one `{module, type: 'regex', line}`
record per matching pattern (the source loop has no `break`). This function
is total: it never throws and returns a best-effort, possibly empty list. -/
def extractImportsWithRegex (content : String) : List ExtractedImport :=
  ((splitChar '\n' content.toList).enum.map fun li =>
    [matchImportFrom li.2, matchDynamicImport li.2, matchRequire li.2,
     matchRequireResolve li.2].filterMap fun m =>
      m.map fun module => { module := module, type := "regex", line := li.1 + 1 }).flatten

/-- Model of `DependencyAnalyzer.extractImports`.  `acornWalk` abstracts
`acorn.parse` followed by the `walk.simple` visitor: it returns the
structurally extracted imports, or `none` when parsing throws.  TypeScript
files bypass the parser entirely; a parse failure falls back to the regex
scan. -/
def extractImports (acornWalk : String → Option (List ExtractedImport))
    (content : String) (filePath : String) : List ExtractedImport :=
  if strEndsWith filePath ".ts" || strEndsWith filePath ".tsx" then
    extractImportsWithRegex content
  else
    match acornWalk content with
    | some imports => imports
    | none => extractImportsWithRegex content

/-- JavaScript `Map.prototype.set`: replace the first entry with the key, or
append a new entry. -/
def mapSet {β : Type} (m : List (String × β)) (k : String) (v : β) : List (String × β) :=
  match m with
  | [] => [(k, v)]
  | e :: rest => if e.1 = k then (e.1, v) :: rest else e :: mapSet rest k v

/-- The `importMap` update of `analyzeFile`: create the bucket on first use,
then push the usage record. -/
def mapPushUsage (m : List (String × List Usage)) (k : String) (u : Usage) :
    List (String × List Usage) :=
  match m with
  | [] => [(k, [u])]
  | e :: rest => if e.1 = k then (e.1, e.2 ++ [u]) :: rest else e :: mapPushUsage rest k u

/-- The mutable per-run state of `DependencyAnalyzer` that `analyzeFile`
touches, together with the result's `warnings` array (which no code path of
the analyzer ever writes). -/
structure AnalyzerState where
  importMap : List (String × List Usage)
  dependencyGraph : List (String × List ExtractedImport)
  warnings : List String
deriving DecidableEq, Repr

/-- Model of `DependencyAnalyzer.analyzeFile` on a readable file: extract
the imports, store them in `dependencyGraph`, and push one usage record
per import into `importMap` keyed by the raw module specifier. -/
def analyzeFile (acornWalk : String → Option (List ExtractedImport))
    (st : AnalyzerState) (filePath content : String) : AnalyzerState :=
  let imports := extractImports acornWalk content filePath
  let st1 : AnalyzerState :=
    { st with dependencyGraph := mapSet st.dependencyGraph filePath imports }
  imports.foldl (fun s imp =>
    let u : Usage := { file := filePath, line := imp.line, type := imp.type }
    { s with importMap := mapPushUsage s.importMap imp.module u }) st1

example :
    extractImportsWithRegex "import x from 'react'\nconst a = require('lodash')" =
      [{ module := "react", type := "regex", line := 1 },
       { module := "lodash", type := "regex", line := 2 }] := by decide

example : extractImportsWithRegex "const x = ;" = [] := by decide

/-! ## Circular-dependency detection

Two implementations exist in the repository.

`DependencyAnalyzer.detectCircular` (analyze-dependencies.js) walks the
`dependencyGraph` (file → extracted raw specifiers) depth-first with a global
visited set, a recursion stack and the current path; a dependency edge only
exists when `resolveImportPath` maps the raw specifier to a key of the graph
(that resolution consults the filesystem and the extension candidate list, so
it is abstracted as the `resolve` parameter).  On meeting a node already on
the recursion stack it records `[...currentPath.slice(indexOf), depFile]` —
the cycle nodes plus the repeated closing node — with a severity computed by
`assessCycleSeverity` from that array's length.  Recursion is modelled with
fuel; every call pushes an unvisited node into the visited set, so any fuel
exceeding the node count is enough and the theorems below only evaluate the
functions on concrete graphs.

`AdvancedDependencyAnalyzer.detectCircularDependencies` (the advanced
analyzer) walks a pre-resolved graph (the output of `buildDependencyGraph`).
Its `dfs(node, path)` records `path.slice(path.indexOf(node))` — without the
closing repetition — but then evaluates `cycle.map(f => path.relative(this.projectPath, f))`
where the parameter `path` (an array) shadows the Node `path` module, so
recording any cycle throws `TypeError: path.relative is not a function`,
which propagates out of the traversal; this is modelled in `Except`. -/

/-- One reported circular-dependency issue. -/
structure CycleIssue where
  path : List String
  severity : String
deriving DecidableEq, Repr

/-- Model of `DependencyAnalyzer.assessCycleSeverity`, applied to the length
of the recorded cycle array (which includes the repeated closing node). -/
def assessCycleSeverity (cycleLength : Nat) : String :=
  if cycleLength ≤ 2 then "high"
  else if cycleLength ≤ 4 then "medium"
  else "low"

/-- Index of the first occurrence of `a` (the `Array.prototype.indexOf` call
of the source; the `-1` case cannot occur there because the recursion stack
is always a subset of the current path). -/
def listIdx (a : String) : List String → Nat
  | [] => 0
  | b :: bs => if b = a then 0 else listIdx a bs + 1

/-- Model of `DependencyAnalyzer.detectCircular`.  Returns the updated
visited set and issue list; the recursion stack and current path are restored
by the source before returning, so they are passed downward only. -/
def detectCircular (resolve : String → String → Option String)
    (graph : List (String × List String)) :
    Nat → String → List String → List String → List String → List CycleIssue →
    List String × List CycleIssue
  | 0, _, visited, _, _, acc => (visited, acc)
  | Nat.succ fuel, file, visited, stack, curPath, acc =>
    let visited1 := file :: visited
    let stack1 := stack ++ [file]
    let path1 := curPath ++ [file]
    let deps := (mapGet graph file).getD []
    deps.foldl (fun st dep =>
      match resolve file dep with
      | none => st
      | some depFile =>
        if stack1.contains depFile then
          let cycle := path1.drop (listIdx depFile path1) ++ [depFile]
          (st.1, st.2 ++ [{ path := cycle, severity := assessCycleSeverity cycle.length }])
        else if st.1.contains depFile then st
        else detectCircular resolve graph fuel depFile st.1 stack1 path1 st.2)
      (visited1, acc)

/-- Model of `DependencyAnalyzer.detectCircularDependencies`: run
`detectCircular` from every not-yet-visited graph key, sharing the visited
set and accumulating `circularPaths`. -/
def detectCircularDependencies (resolve : String → String → Option String)
    (graph : List (String × List String)) : List CycleIssue :=
  (graph.foldl (fun st e =>
    if st.1.contains e.1 then st
    else detectCircular resolve graph (graph.length + 2) e.1 st.1 [] [] st.2)
    (([] : List String), ([] : List CycleIssue))).2

/-- The severity ternary of the advanced analyzer's cycle mapping
(`cycle.length <= 3 ? 'high' : cycle.length <= 5 ? 'medium' : 'low'`),
applied to the distinct-node cycle list. -/
def advCycleSeverity (cycleLength : Nat) : String :=
  if cycleLength ≤ 3 then "high"
  else if cycleLength ≤ 5 then "medium"
  else "low"

/-- Model of the advanced analyzer's `dfs`.  The graph is pre-resolved
(file → resolved local dependency files).  Recording a cycle evaluates
`cycle.map(f => path.relative(this.projectPath, f))` with `path` bound to the
array parameter, so it throws; the thrown `TypeError` is the `Except.error`
value. -/
def advDfs (graph : List (String × List String)) :
    Nat → String → List String → List String → List String → List (List String) →
    Except String (List String × List (List String))
  | 0, _, visited, _, _, cycles => Except.ok (visited, cycles)
  | Nat.succ fuel, node, visited, stack, path, cycles =>
    if stack.contains node then
      Except.error "path.relative is not a function"
    else if visited.contains node then Except.ok (visited, cycles)
    else
      let visited1 := node :: visited
      let stack1 := stack ++ [node]
      let path1 := path ++ [node]
      ((mapGet graph node).getD []).foldlM (fun st dep =>
        advDfs graph fuel dep st.1 stack1 path1 st.2) (visited1, cycles)

/-- Model of `AdvancedDependencyAnalyzer.detectCircularDependencies`: run
`dfs` from every unvisited key with a fresh path, then map the collected
cycles to issues; a thrown `TypeError` propagates out of the loop. -/
def advDetectCircularDependencies (graph : List (String × List String)) :
    Except String (List CycleIssue) :=
  match graph.foldlM (fun st e =>
      if st.1.contains e.1 then Except.ok st
      else advDfs graph (graph.length + 2) e.1 st.1 [] [] st.2)
      (([] : List String), ([] : List (List String))) with
  | Except.error msg => Except.error msg
  | Except.ok st =>
    Except.ok (st.2.map fun cycle =>
      { path := cycle, severity := advCycleSeverity cycle.length })

/-- Does an `Except` value hold exactly this error? -/
def exceptIsError {α : Type} (e : Except String α) (msg : String) : Bool :=
  match e with
  | Except.error m => m == msg
  | Except.ok _ => false

/-- Successor function of the representative triangle `a → b → c → a`. -/
def triNext (f : String) : String :=
  if f = "a" then "b" else if f = "b" then "c" else "a"

/-- The triangle graph with its entries in the given insertion order. -/
def triGraph (order : List String) : List (String × List String) :=
  order.map fun f => (f, [triNext f])

/-- A resolver realising exactly the edges of a pre-resolved graph: a raw
specifier resolves iff it is a key of the graph (as `resolveImportPath`
returns a path only when `dependencyGraph.has` it). -/
def memberResolve (graph : List (String × List String)) :
    String → String → Option String :=
  fun _ dep => if mapHas graph dep then some dep else none

example :
    detectCircularDependencies (memberResolve (triGraph ["a", "b", "c"]))
      (triGraph ["a", "b", "c"]) =
      [{ path := ["a", "b", "c", "a"], severity := "medium" }] := by decide

example :
    detectCircularDependencies (memberResolve (triGraph ["b", "c", "a"]))
      (triGraph ["b", "c", "a"]) =
      [{ path := ["b", "c", "a", "b"], severity := "medium" }] := by decide

example :
    exceptIsError (advDetectCircularDependencies (triGraph ["a", "b", "c"]))
      "path.relative is not a function" = true := by decide

/-! ## `PeerDependencyAnalyzer`

`installedPackages` is the map built by `loadInstalledPackages`: package name
→ record with the package's `version` and its own manifest (of which the
analysis reads `peerDependencies` and `peerDependenciesMeta`).  The
`peerDependenciesMeta` map stores, per peer name, whether
`meta.optional === true`.  The `multipleVersions` field of the source (a
second `node_modules` walk) is not modelled; no analysed property reads it. -/

/-- The slice of an installed package's own `package.json` that the peer
analysis reads. -/
structure PeerPkgJson where
  version : String
  peerDependencies : List (String × String)
  peerDependenciesMeta : List (String × Bool)
deriving DecidableEq, Repr

/-- One value of the `installedPackages` map. -/
structure InstalledPackage where
  version : String
  packageJson : PeerPkgJson
deriving DecidableEq, Repr

/-- Model of `PeerDependencyAnalyzer.checkVersionCompatibility`.
`semver.satisfies` returns `false` (rather than throwing) on every input in
the modelled fragment, so the `catch` branch
(`fallbackCompatibilityCheck`) is unreachable. -/
def checkVersionCompatibility (requiredRange installedVersion : String) : Bool :=
  semverSatisfies installedVersion requiredRange

/-- The `isOptional` flag: `(peerDependenciesMeta[peerName] || {}).optional === true`. -/
def peerIsOptional (packageJson : PeerPkgJson) (peerName : String) : Bool :=
  (mapGet packageJson.peerDependenciesMeta peerName).getD false

/-- One entry of a package's per-peer analysis list. -/
structure PeerDepInfo where
  name : String
  requiredVersion : String
  isOptional : Bool
  installed : Bool
  installedVersion : Option String
  isCompatible : Bool
deriving DecidableEq, Repr

/-- One same-package peer-conflict record. -/
structure PeerConflict where
  package : String
  peerDependency : String
  required : String
  installed : String
  severity : String
deriving DecidableEq, Repr

/-- One peer-missing record. -/
structure PeerMissing where
  package : String
  peerDependency : String
  requiredVersion : String
  severity : String
deriving DecidableEq, Repr

/-- The result record of `analyzePackagePeerDeps`. -/
structure PeerAnalysis where
  name : String
  version : String
  peerDependencies : List PeerDepInfo
  missing : List PeerMissing
  conflicts : List PeerConflict
deriving DecidableEq, Repr

/-- Model of `PeerDependencyAnalyzer.analyzePackagePeerDeps`.  The source's
single loop over `Object.entries(peerDeps)` pushes into the three result
lists independently; each list is therefore a comprehension over the same
entry list. -/
def analyzePackagePeerDeps (installedPackages : List (String × InstalledPackage))
    (packageName : String) (packageInfo : InstalledPackage) : PeerAnalysis :=
  let peerDeps := packageInfo.packageJson.peerDependencies
  { name := packageName
    version := packageInfo.version
    peerDependencies := peerDeps.map fun e =>
      let isOpt := peerIsOptional packageInfo.packageJson e.1
      match mapGet installedPackages e.1 with
      | some info =>
        { name := e.1, requiredVersion := e.2, isOptional := isOpt, installed := true,
          installedVersion := some info.version,
          isCompatible := checkVersionCompatibility e.2 info.version }
      | none =>
        { name := e.1, requiredVersion := e.2, isOptional := isOpt, installed := false,
          installedVersion := none, isCompatible := false }
    missing := peerDeps.filterMap fun e =>
      let isOpt := peerIsOptional packageInfo.packageJson e.1
      match mapGet installedPackages e.1 with
      | some _ => none
      | none =>
        if isOpt then none
        else some { package := packageName, peerDependency := e.1,
                    requiredVersion := e.2, severity := "high" }
    conflicts := peerDeps.filterMap fun e =>
      let isOpt := peerIsOptional packageInfo.packageJson e.1
      match mapGet installedPackages e.1 with
      | some info =>
        if !checkVersionCompatibility e.2 info.version && !isOpt then
          some { package := packageName, peerDependency := e.1, required := e.2,
                 installed := info.version, severity := "high" }
        else none
      | none => none }

/-! ### The cross-package conflict pass -/

/-- One requirement record of the `peerRequirements` grouping. -/
structure PeerRequirement where
  package : String
  version : String
  requiredVersion : String
deriving DecidableEq, Repr

/-- One cross-package conflict record. -/
structure CrossConflict where
  type : String
  package : String
  requirements : List PeerRequirement
  severity : String
  message : String
  suggestion : String
deriving DecidableEq, Repr

/-- Append a requirement to the bucket of `peer`, creating the bucket at the
end on first use (JavaScript `Map` insertion order). -/
def addRequirement (m : List (String × List PeerRequirement)) (peer : String)
    (r : PeerRequirement) : List (String × List PeerRequirement) :=
  match m with
  | [] => [(peer, [r])]
  | e :: rest =>
    if e.1 = peer then (e.1, e.2 ++ [r]) :: rest
    else e :: addRequirement rest peer r

/-- The `peerRequirements` map of `analyzeCrossPackageConflicts`: all peer
requirements of all installed packages, grouped by peer name. -/
def collectPeerRequirements (installedPackages : List (String × InstalledPackage)) :
    List (String × List PeerRequirement) :=
  installedPackages.foldl (fun m p =>
    p.2.packageJson.peerDependencies.foldl (fun m e =>
      addRequirement m e.1
        { package := p.1, version := p.2.version, requiredVersion := e.2 }) m) []

/-- Model of `PeerDependencyAnalyzer.extractMajorVersion`: the regex
`[\^~]?(\d+)` captures the first digit run of the string; `0` when there is
none. -/
def extractMajorVersion (versionRange : String) : Nat :=
  (versionRange.toList.dropWhile fun c => !c.isDigit).takeWhile Char.isDigit
    |> parseNatChars |>.getD 0

/-- Model of `PeerDependencyAnalyzer.findCompatibleVersion`: the set of
positive major versions mentioned by the requirements; a singleton suggests
`^M.0.0`, anything else requires manual resolution. -/
def findCompatibleVersion (requirements : List PeerRequirement) : String :=
  let majors := ((requirements.map fun r => extractMajorVersion r.requiredVersion).filter
    fun m => m > 0).dedup
  match majors with
  | [m] => "^" ++ toString m ++ ".0.0"
  | _ => "Manual resolution required"

/-- Join the requirement ranges with single spaces (`versions.join(' ')`). -/
def joinSpace : List String → String
  | [] => ""
  | [s] => s
  | s :: rest => s ++ " " ++ joinSpace rest

/-- Model of `PeerDependencyAnalyzer.areRequirementsCompatible`: the source
evaluates `semver.validRange(versions.join(' '))` in boolean position.
`validRange` never throws (it catches internally and returns `null`), so the
`catch` branch with the pairwise `rangesOverlap` check is unreachable; the
result is the *syntactic* validity of the space-joined range, not its
satisfiability. -/
def areRequirementsCompatible (requirements : List PeerRequirement) : Bool :=
  validRange (joinSpace (requirements.map fun r => r.requiredVersion))

/-- Model of `PeerDependencyAnalyzer.analyzeVersionConflict`. -/
def analyzeVersionConflict (packageName : String)
    (requirements : List PeerRequirement) : Option CrossConflict :=
  if areRequirementsCompatible requirements then none
  else
    some { type := "cross-package-conflict", package := packageName,
           requirements := requirements, severity := "medium",
           message := "Multiple packages require different versions of " ++ packageName,
           suggestion := findCompatibleVersion requirements }

/-- Model of `PeerDependencyAnalyzer.analyzeCrossPackageConflicts`: group
all requirements by peer name, then report a conflict for every peer with
more than one requirement whose requirements are judged incompatible. -/
def analyzeCrossPackageConflicts (installedPackages : List (String × InstalledPackage)) :
    List CrossConflict :=
  (collectPeerRequirements installedPackages).filterMap fun e =>
    if e.2.length > 1 then analyzeVersionConflict e.1 e.2 else none

example : extractMajorVersion "^16.0.0" = 16 := by decide
example : extractMajorVersion ">=2" = 2 := by decide
example : extractMajorVersion "latest" = 0 := by decide

/-! ## Concrete fixtures used by the claim theorems -/

/-- An installed package whose only peer requirement is `react` at the given
range, with no `peerDependenciesMeta`. -/
def pkgRequiringReact (range : String) : InstalledPackage :=
  { version := "1.0.0",
    packageJson := { version := "1.0.0", peerDependencies := [("react", range)],
                     peerDependenciesMeta := [] } }

/-- Installed tree: two packages with disjoint caret requirements on `react`
(`^16.0.0` vs `^17.0.0`); no version of `react` satisfies both. -/
def installedDisjointPeers : List (String × InstalledPackage) :=
  [("pkg-a", pkgRequiringReact "^16.0.0"), ("pkg-b", pkgRequiringReact "^17.0.0")]

/-- Installed tree: two packages whose requirements on `react` share major 16. -/
def installedAgreeingPeers : List (String × InstalledPackage) :=
  [("pkg-a", pkgRequiringReact "^16.0.0"), ("pkg-b", pkgRequiringReact "^16.x")]

/-- A `node_modules` abstraction in which nothing is installed. -/
def fsAbsent : NodeModulesFs :=
  { dirExists := fun _ => false, pkgJsonExists := fun _ => false,
    pkgJsonParse := fun _ => none }

/-- The analyzer state at construction time: empty maps, empty warnings. -/
def initialAnalyzerState : AnalyzerState :=
  { importMap := [], dependencyGraph := [], warnings := [] }

/-- A file whose first line does not parse (`const x = ;` is a syntax error
for acorn) but whose second line is recognisable by the fallback patterns. -/
def brokenContent : String :=
  "const x = ;\nrequire('lodash')"

/-- A two-file mutual-import graph `a ↔ b`, pre-resolved. -/
def twoCycleGraph : List (String × List String) :=
  [("a", ["b"]), ("b", ["a"])]

/-- A one-file self-import graph. -/
def selfLoopGraph : List (String × List String) :=
  [("a", ["a"])]

/-- A four-file cycle `a → b → c → d → a`, pre-resolved. -/
def fourCycleGraph : List (String × List String) :=
  [("a", ["b"]), ("b", ["c"]), ("c", ["d"]), ("d", ["a"])]

/-- Caret satisfaction against a fully specified version with positive
major: the half-open interval from the version to the next major. -/
theorem satisfiesComparator_caret_fixed (v : SemVer) (M m q : Nat) (hM : 0 < M) :
    satisfiesComparator v
        ⟨CompOp.caret, ⟨VPart.num M, some (VPart.num m), some (VPart.num q)⟩⟩ =
      (semVerLe ⟨M, m, q⟩ v && semVerLt v ⟨M + 1, 0, 0⟩) := by
  simp [satisfiesComparator, normParts, hM]

/-! ## Claim C1 -/

/-- C1: the spec claims that two or more installed packages declaring peer
requirements on the same name with no common satisfying version (such as
`^16.0.0` against `^17.0.0`) produce exactly one cross-package conflict
naming all requiring packages.  The code disagrees:
`areRequirementsCompatible` evaluates `semver.validRange(versions.join(' '))`,
a *syntactic* validity check, and the space-joined range `^16.0.0 ^17.0.0` is
syntactically valid even though it is unsatisfiable, so
`analyzeCrossPackageConflicts` emits no conflict at all.  The third conjunct
shows the two ranges really have no common satisfying version, and the fourth
shows the compatible-requirements half of the claim (no conflict is emitted)
does hold. -/
theorem C1_cross_package_conflict_not_emitted :
    analyzeCrossPackageConflicts installedDisjointPeers = [] ∧
    validRange "^16.0.0 ^17.0.0" = true ∧
    (∀ v : SemVer,
      (semverSatisfiesV v "^16.0.0" && semverSatisfiesV v "^17.0.0") = false) ∧
    analyzeCrossPackageConflicts installedAgreeingPeers = [] := by
  refine ⟨by decide, by decide, ?_, by decide⟩
  intro v
  obtain ⟨M, m, p⟩ := v
  have h16 : parseRange "^16.0.0" =
      some [[⟨CompOp.caret, ⟨VPart.num 16, some (VPart.num 0), some (VPart.num 0)⟩⟩]] := by
    decide
  have h17 : parseRange "^17.0.0" =
      some [[⟨CompOp.caret, ⟨VPart.num 17, some (VPart.num 0), some (VPart.num 0)⟩⟩]] := by
    decide
  rw [Bool.eq_false_iff]
  intro hcontra
  rw [Bool.and_eq_true] at hcontra
  obtain ⟨ha, hb⟩ := hcontra
  rw [semverSatisfiesV, h16] at ha
  rw [semverSatisfiesV, h17] at hb
  simp only [List.any_cons, List.any_nil, List.all_cons, List.all_nil,
    Bool.or_false, Bool.and_true] at ha hb
  rw [satisfiesComparator_caret_fixed _ _ _ _ (by norm_num)] at ha
  rw [satisfiesComparator_caret_fixed _ _ _ _ (by norm_num)] at hb
  simp only [Bool.and_eq_true, semVerLe, semVerLt, Bool.or_eq_true,
    beq_iff_eq, decide_eq_true_eq, SemVer.mk.injEq] at ha hb
  omega

/-! ## Claim C3 -/

/-- C3 counterexample: the claim says the reported cycle of the triangle
`a → b → c → a` is canonicalized so that the output does not depend on the
traversal-root order.  Running the basic analyzer's detection on the same
edge set with two different `Map` insertion orders produces two different
rotations, and the advanced analyzer aborts with the shadowed-`path`
TypeError instead of reporting a cycle at all. -/
theorem C3_counterexample :
    detectCircularDependencies (memberResolve (triGraph ["a", "b", "c"]))
        (triGraph ["a", "b", "c"]) =
      [{ path := ["a", "b", "c", "a"], severity := "medium" }] ∧
    detectCircularDependencies (memberResolve (triGraph ["b", "c", "a"]))
        (triGraph ["b", "c", "a"]) =
      [{ path := ["b", "c", "a", "b"], severity := "medium" }] ∧
    detectCircularDependencies (memberResolve (triGraph ["a", "b", "c"]))
        (triGraph ["a", "b", "c"]) ≠
      detectCircularDependencies (memberResolve (triGraph ["b", "c", "a"]))
        (triGraph ["b", "c", "a"]) ∧
    exceptIsError (advDetectCircularDependencies (triGraph ["a", "b", "c"]))
      "path.relative is not a function" = true := by
  refine ⟨by decide, by decide, by decide, by decide⟩

/-- Are two string lists equal as sets (each contained in the other)? -/
def sameStringSet (l1 l2 : List String) : Bool :=
  l1.all (fun x => l2.contains x) && l2.all (fun x => l1.contains x)

/-- The amended per-order check for the triangle: the basic analyzer reports
exactly one cycle, its node set is exactly `{a, b, c}`, its path is the
rotation starting at the first-visited root followed by the repeated closing
node (hence insertion-order dependent), and the advanced analyzer throws the
shadowed-`path` TypeError. -/
def triangleCheck (order : List String) : Bool :=
  let g := triGraph order
  let res := detectCircularDependencies (memberResolve g) g
  (res.length == 1) &&
    res.all (fun i => sameStringSet i.path ["a", "b", "c"]) &&
    (match order with
     | h :: _ =>
        res == [{ path := [h, triNext h, triNext (triNext h), h],
                  severity := "medium" }]
     | [] => false) &&
    exceptIsError (advDetectCircularDependencies g) "path.relative is not a function"

/-- All six insertion orders of the three triangle files. -/
def triOrders : List (List String) :=
  [["a", "b", "c"], ["a", "c", "b"], ["b", "a", "c"],
   ["b", "c", "a"], ["c", "a", "b"], ["c", "b", "a"]]

/-- C3 (amended): for every insertion order of the triangle graph
`a → b → c → a`, the basic analyzer reports exactly one cycle whose node set
is exactly `{a, b, c}`, given in traversal order starting at the
first-visited root and closed by repeating it — so the concrete rotation
depends on the root order and no canonicalization or deduplication step
exists — while the advanced analyzer throws
`TypeError: path.relative is not a function` (its `dfs` parameter `path`
shadows the `path` module) instead of reporting the cycle. -/
theorem C3_one_cycle_traversal_order_dependent :
    ∀ order ∈ triOrders, triangleCheck order = true := by
  decide

/-- C3 witness: the check holds at the in-source insertion order. -/
theorem C3_one_cycle_traversal_order_dependent_witness :
    triangleCheck ["a", "b", "c"] = true :=
  C3_one_cycle_traversal_order_dependent ["a", "b", "c"] (by decide)

/-! ## Claim C8 -/

/-- C8: when structural parsing fails, extraction falls back to the
line-oriented pattern scan — a total function returning a best-effort
(possibly empty) list — but, contrary to the claim, the caller records *no*
degraded-extraction warning: no code path of the analyzer ever writes
`result.warnings`.  At the failing input (a file whose first line is an
acorn syntax error), the fallback recovers the `require` on line 2 while the
warnings array stays empty; the third conjunct shows the parse-failure path
is exactly the regex scan, and the fourth that the scan can legitimately
return the empty list. -/
theorem C8_fallback_without_degraded_warning :
    (analyzeFile (fun _ => none) initialAnalyzerState "src/broken.js" brokenContent).warnings
        = [] ∧
    (analyzeFile (fun _ => none) initialAnalyzerState "src/broken.js" brokenContent).importMap
        = [("lodash", [{ file := "src/broken.js", line := 2, type := "regex" }])] ∧
    (∀ content : String,
      extractImports (fun _ => none) content "src/broken.js" =
        extractImportsWithRegex content) ∧
    extractImportsWithRegex "const x = ;" = [] := by
  refine ⟨by decide, by decide, ?_, by decide⟩
  intro content
  rfl

/-! ## Claim C9 -/

/-- C9 counterexample: the claim says a cycle of 2–3 distinct files is
reported with severity `high`.  In the basic analyzer the severity is
computed from the recorded path length, which includes the repeated closing
node: the two-file cycle `a ↔ b` is recorded as `[a, b, a]` (length 3) and
assessed `medium`, not `high`. -/
theorem C9_counterexample :
    detectCircularDependencies (memberResolve twoCycleGraph) twoCycleGraph =
      [{ path := ["a", "b", "a"], severity := "medium" }] ∧
    ("medium" : String) ≠ "high" := by
  refine ⟨by decide, by decide⟩

/-- C9 (amended): the basic analyzer assesses severity from the reported
path length including the closing repetition, so only self-loops are `high`,
cycles of 2–3 distinct files are `medium` and longer ones `low`; the
advanced analyzer's mapping would assess distinct-node cycle lists as `high`
up to 3 nodes, `medium` up to 5 and `low` beyond, but it is unreachable for
actual cycles because recording a cycle throws the shadowed-`path`
TypeError. -/
theorem C9_severity_from_closed_path_length :
    detectCircularDependencies (memberResolve selfLoopGraph) selfLoopGraph =
      [{ path := ["a", "a"], severity := "high" }] ∧
    detectCircularDependencies (memberResolve twoCycleGraph) twoCycleGraph =
      [{ path := ["a", "b", "a"], severity := "medium" }] ∧
    detectCircularDependencies (memberResolve (triGraph ["a", "b", "c"]))
        (triGraph ["a", "b", "c"]) =
      [{ path := ["a", "b", "c", "a"], severity := "medium" }] ∧
    detectCircularDependencies (memberResolve fourCycleGraph) fourCycleGraph =
      [{ path := ["a", "b", "c", "d", "a"], severity := "low" }] ∧
    advCycleSeverity 2 = "high" ∧ advCycleSeverity 3 = "high" ∧
    advCycleSeverity 4 = "medium" ∧ advCycleSeverity 5 = "medium" ∧
    advCycleSeverity 6 = "low" ∧
    exceptIsError (advDetectCircularDependencies twoCycleGraph)
      "path.relative is not a function" = true := by
  refine ⟨by decide, by decide, by decide, by decide, by decide, by decide,
    by decide, by decide, by decide, by decide⟩

/-! ## Claim C2 -/

/-- C2: for every external (bare, non-builtin) name that is a key of
the import map and is not declared: when `node_modules/<name>` is absent the name
is classified missing and never phantom; when it is present with a readable,
parseable `package.json` it is classified phantom and never missing; and no
name can be in both lists. -/
theorem C2_missing_phantom_dichotomy
    (fs : NodeModulesFs) (chainFn : String → Option (List String))
    (dependencies : List (String × DepInfo)) (importMap : List (String × List Usage))
    (name : String)
    (himp : mapHas importMap name = true)
    (hext : skipImport name = false)
    (hdecl : mapHas dependencies name = false) :
    (fs.dirExists name = false →
      name ∈ (findMissingDependencies fs dependencies importMap).map (·.name) ∧
      name ∉ (findPhantomDependencies fs chainFn dependencies importMap).map (·.name)) ∧
    (fs.dirExists name = true → fs.pkgJsonExists name = true →
      (fs.pkgJsonParse name).isSome →
      name ∈ (findPhantomDependencies fs chainFn dependencies importMap).map (·.name) ∧
      name ∉ (findMissingDependencies fs dependencies importMap).map (·.name)) ∧
    ¬(name ∈ (findMissingDependencies fs dependencies importMap).map (·.name) ∧
      name ∈ (findPhantomDependencies fs chainFn dependencies importMap).map (·.name)) := by
  obtain ⟨us, hus⟩ := mapHas_true_exists himp
  refine ⟨?_, ?_, ?_⟩
  · intro hdir
    constructor
    · exact mem_missing_names.mpr ⟨⟨us, hus⟩, hext, hdecl, hdir⟩
    · intro hph
      have := (mem_phantom_names.mp hph).2.2.2.1
      rw [hdir] at this
      simp at this
  · intro hdir hpe hps
    constructor
    · exact mem_phantom_names.mpr ⟨⟨us, hus⟩, hext, hdecl, hdir, hpe, hps⟩
    · intro hmi
      have := (mem_missing_names.mp hmi).2.2.2
      rw [hdir] at this
      simp at this
  · rintro ⟨hmi, hph⟩
    have h1 := (mem_missing_names.mp hmi).2.2.2
    have h2 := (mem_phantom_names.mp hph).2.2.2.1
    rw [h1] at h2
    simp at h2

/-- Import map containing one usage of the undeclared external `pkg-x`. -/
def importMapPkgX : List (String × List Usage) :=
  [("pkg-x", [{ file := "src/a.js", line := 1, type := "import" }])]

/-- A `node_modules` abstraction in which only `pkg-x` is properly
installed, manifest version `2.0.0`. -/
def fsWithPkgX : NodeModulesFs :=
  { dirExists := fun n => n = "pkg-x",
    pkgJsonExists := fun n => n = "pkg-x",
    pkgJsonParse := fun n => if n = "pkg-x" then some (some "2.0.0") else none }

/-- C2 witness: at the concrete instances, the absent `pkg-x` lands in
missing and not phantom, and the properly installed `pkg-x` lands in phantom
and not missing. -/
theorem C2_missing_phantom_dichotomy_witness :
    ("pkg-x" ∈ (findMissingDependencies fsAbsent [] importMapPkgX).map (·.name) ∧
      "pkg-x" ∉ (findPhantomDependencies fsAbsent (fun _ => none) [] importMapPkgX).map (·.name)) ∧
    ("pkg-x" ∈ (findPhantomDependencies fsWithPkgX (fun _ => none) [] importMapPkgX).map (·.name) ∧
      "pkg-x" ∉ (findMissingDependencies fsWithPkgX [] importMapPkgX).map (·.name)) :=
  ⟨(C2_missing_phantom_dichotomy fsAbsent (fun _ => none) [] importMapPkgX "pkg-x"
      (by decide) (by decide) (by decide)).1 (by decide),
   (C2_missing_phantom_dichotomy fsWithPkgX (fun _ => none) [] importMapPkgX "pkg-x"
      (by decide) (by decide) (by decide)).2.1 (by decide) (by decide) (by decide)⟩

/-! ## Claim C5 -/

/-- C5: a dependency that is declared (in the analyzed scope) and appears as
a key of the import map is never placed in the unused list:
`isDependencyUsed` accepts every directly imported name, so the loop of
`findUnusedDependencies` skips it. -/
theorem C5_declared_and_imported_never_unused
    (dependencies : List (String × DepInfo)) (importMap : List (String × List Usage))
    (name : String)
    (hdecl : mapHas dependencies name = true)
    (himp : mapHas importMap name = true) :
    name ∉ (findUnusedDependencies dependencies importMap).map (·.name) := by
  intro hmem
  rw [findUnusedDependencies, List.mem_map] at hmem
  obtain ⟨entry, hentry, hname⟩ := hmem
  obtain ⟨d, _, hfd⟩ := List.mem_filterMap.mp hentry
  by_cases hu : isDependencyUsed importMap d.1
  · simp [hu] at hfd
  · simp [hu] at hfd
    have hn : d.1 = name := by rw [← hname, ← hfd]
    rw [hn] at hu
    exact hu (by rw [isDependencyUsed]; simp [himp])

/-- Declared dependency map containing only `lodash`. -/
def depsLodash : List (String × DepInfo) :=
  [("lodash", { version := "^4.17.21", type := "dependencies" })]

/-- Import map recording one `require` of `lodash`. -/
def importMapLodash : List (String × List Usage) :=
  [("lodash", [{ file := "src/a.js", line := 3, type := "require" }])]

/-- C5 witness: declared and imported `lodash` is not reported unused. -/
theorem C5_declared_and_imported_never_unused_witness :
    "lodash" ∉ (findUnusedDependencies depsLodash importMapLodash).map (·.name) :=
  C5_declared_and_imported_never_unused depsLodash importMapLodash "lodash"
    (by decide) (by decide)

/-! ## Claim C6 -/

/-- Declared dependency map containing only the scoped package `@scope/pkg`. -/
def depsScoped : List (String × DepInfo) :=
  [("@scope/pkg", { version := "^1.0.0", type := "dependencies" })]

/-- Import map whose only key is the subpath specifier `@scope/pkg/sub`. -/
def importMapScopedSub : List (String × List Usage) :=
  [("@scope/pkg/sub", [{ file := "src/a.js", line := 1, type := "import" }])]

/-- C6 counterexample: the claim says a subpath import such as
`@scope/pkg/sub` is identified with the owning declared package
`@scope/pkg`.  The code stores the raw specifier: with `@scope/pkg` declared
and only `@scope/pkg/sub` imported (nothing installed), the subpath lands in
the missing list as its own name and the owning package is simultaneously
reported unused — neither would happen if the identity were the owning
package. -/
theorem C6_counterexample :
    (findMissingDependencies fsAbsent depsScoped importMapScopedSub).map (·.name) =
      ["@scope/pkg/sub"] ∧
    (findUnusedDependencies depsScoped importMapScopedSub).map (·.name) =
      ["@scope/pkg"] := by
  refine ⟨by decide, by decide⟩

/-- C6 (amended): the external module identity is the raw specifier
including any subpath.  A subpath import of a declared package is treated as
a distinct undeclared name: whenever the subpath specifier itself is
undeclared, external, imported, and its literal path is absent from
`node_modules`, it is classified missing — regardless of the owning
package's declaration. -/
theorem C6_subpath_import_is_distinct_name
    (fs : NodeModulesFs) (dependencies : List (String × DepInfo))
    (importMap : List (String × List Usage))
    (base sub : String) (info : DepInfo)
    (hbase : mapGet dependencies base = some info)
    (hsub : mapHas dependencies sub = false)
    (hskip : skipImport sub = false)
    (himp : mapHas importMap sub = true)
    (hdir : fs.dirExists sub = false) :
    sub ∈ (findMissingDependencies fs dependencies importMap).map (·.name) := by
  obtain ⟨us, hus⟩ := mapHas_true_exists himp
  exact mem_missing_names.mpr ⟨⟨us, hus⟩, hskip, hsub, hdir⟩

/-- C6 witness: with `@scope/pkg` declared, the subpath import
`@scope/pkg/sub` is classified missing under its own name. -/
theorem C6_subpath_import_is_distinct_name_witness :
    "@scope/pkg/sub" ∈
      (findMissingDependencies fsAbsent depsScoped importMapScopedSub).map (·.name) :=
  C6_subpath_import_is_distinct_name fsAbsent depsScoped importMapScopedSub
    "@scope/pkg" "@scope/pkg/sub"
    { version := "^1.0.0", type := "dependencies" }
    (by decide) (by decide) (by decide) (by decide) (by decide)

/-! ## Claim C10 -/

/-- C10: an imported external undeclared name whose `node_modules` directory
exists but has no readable or parseable `package.json` appears in neither
the missing list (the directory's existence suppresses it) nor the phantom
list (which requires a parseable manifest): it receives no classification at
all. -/
theorem C10_broken_install_unclassified
    (fs : NodeModulesFs) (chainFn : String → Option (List String))
    (dependencies : List (String × DepInfo)) (importMap : List (String × List Usage))
    (name : String)
    (himp : mapHas importMap name = true)
    (hext : skipImport name = false)
    (hdecl : mapHas dependencies name = false)
    (hdir : fs.dirExists name = true)
    (hbad : fs.pkgJsonExists name = false ∨ fs.pkgJsonParse name = none) :
    name ∉ (findMissingDependencies fs dependencies importMap).map (·.name) ∧
    name ∉ (findPhantomDependencies fs chainFn dependencies importMap).map (·.name) := by
  constructor
  · intro hmi
    have := (mem_missing_names.mp hmi).2.2.2
    rw [hdir] at this
    simp at this
  · intro hph
    obtain ⟨_, _, _, _, hpe, hps⟩ := mem_phantom_names.mp hph
    rcases hbad with hb | hb
    · rw [hb] at hpe
      simp at hpe
    · rw [hb] at hps
      simp at hps

/-- A `node_modules` abstraction in which the directory for `pkg-x` exists
but contains no `package.json`. -/
def fsDirOnlyPkgX : NodeModulesFs :=
  { dirExists := fun n => n = "pkg-x",
    pkgJsonExists := fun _ => false,
    pkgJsonParse := fun _ => none }

/-- C10 witness: at the concrete instance (directory without manifest),
`pkg-x` is in neither list. -/
theorem C10_broken_install_unclassified_witness :
    "pkg-x" ∉ (findMissingDependencies fsDirOnlyPkgX [] importMapPkgX).map (·.name) ∧
    "pkg-x" ∉ (findPhantomDependencies fsDirOnlyPkgX (fun _ => none) [] importMapPkgX).map (·.name) :=
  C10_broken_install_unclassified fsDirOnlyPkgX (fun _ => none) [] importMapPkgX "pkg-x"
    (by decide) (by decide) (by decide) (by decide) (Or.inl (by decide))

/-! ## Claim C4 -/

/-- The installed `react@17.0.0` package record. -/
def reactInstalled17 : InstalledPackage :=
  { version := "17.0.0",
    packageJson := { version := "17.0.0", peerDependencies := [],
                     peerDependenciesMeta := [] } }

/-- A package requiring `react@^16.8.0` as an *optional* peer. -/
def optionalReactLib : InstalledPackage :=
  { version := "1.0.0",
    packageJson := { version := "1.0.0",
                     peerDependencies := [("react", "^16.8.0")],
                     peerDependenciesMeta := [("react", true)] } }

/-- The installed tree pairing the optional requirer with `react@17.0.0`. -/
def installedOptionalConflict : List (String × InstalledPackage) :=
  [("react", reactInstalled17), ("my-lib", optionalReactLib)]

/-- C4 counterexample: the claim says every installed package declaring a
peer requirement `^16.8.0` gets a peer-conflict when the installed version is
`17.0.0`.  The compatibility check does reject `17.0.0`, but conflict
emission is gated on the requirement not being marked optional in
`peerDependenciesMeta`: for the optional requirer no conflict is emitted. -/
theorem C4_counterexample :
    checkVersionCompatibility "^16.8.0" "17.0.0" = false ∧
    (analyzePackagePeerDeps installedOptionalConflict "my-lib" optionalReactLib).conflicts
      = [] := by
  refine ⟨by decide, by decide⟩

/-- C4 (amended): the compatibility check follows caret major-version
semantics — `^16.8.0` accepts `16.9.0` and rejects `17.0.0` — and, for a
requirement on an installed peer: no conflict carrying that requirement is
emitted when the installed version is `16.9.0`, while a conflict carrying
both the required range and the installed version is emitted for `17.0.0`
provided the requirement is not marked optional in `peerDependenciesMeta`. -/
theorem C4_caret_compatibility_and_conflict :
    checkVersionCompatibility "^16.8.0" "16.9.0" = true ∧
    checkVersionCompatibility "^16.8.0" "17.0.0" = false ∧
    (∀ (installedPackages : List (String × InstalledPackage))
       (packageName : String) (packageInfo : InstalledPackage)
       (peerName : String) (inst : InstalledPackage),
      mapGet installedPackages peerName = some inst →
      inst.version = "16.9.0" →
      ∀ c ∈ (analyzePackagePeerDeps installedPackages packageName packageInfo).conflicts,
        ¬(c.peerDependency = peerName ∧ c.required = "^16.8.0")) ∧
    (∀ (installedPackages : List (String × InstalledPackage))
       (packageName : String) (packageInfo : InstalledPackage)
       (peerName : String) (inst : InstalledPackage),
      (peerName, "^16.8.0") ∈ packageInfo.packageJson.peerDependencies →
      mapGet installedPackages peerName = some inst →
      inst.version = "17.0.0" →
      peerIsOptional packageInfo.packageJson peerName = false →
      ({ package := packageName, peerDependency := peerName, required := "^16.8.0",
         installed := "17.0.0", severity := "high" } : PeerConflict)
        ∈ (analyzePackagePeerDeps installedPackages packageName packageInfo).conflicts) := by
  have hcompat : checkVersionCompatibility "^16.8.0" "16.9.0" = true := by decide
  have hincompat : checkVersionCompatibility "^16.8.0" "17.0.0" = false := by decide
  refine ⟨hcompat, hincompat, ?_, ?_⟩
  · intro installedPackages packageName packageInfo peerName inst hget hver c hc hcontra
    obtain ⟨hcp, hcr⟩ := hcontra
    rw [analyzePackagePeerDeps] at hc
    simp only at hc
    obtain ⟨e, he, hfe⟩ := List.mem_filterMap.mp hc
    cases hg : mapGet installedPackages e.1 with
    | none => rw [hg] at hfe; simp at hfe
    | some inst1 =>
      rw [hg] at hfe
      simp only at hfe
      by_cases hcond :
          !checkVersionCompatibility e.2 inst1.version &&
            !peerIsOptional packageInfo.packageJson e.1
      · rw [if_pos hcond] at hfe
        have hc1 : c.peerDependency = e.1 := by rw [← Option.some_inj.mp hfe]
        have hc2 : c.required = e.2 := by rw [← Option.some_inj.mp hfe]
        have he1 : e.1 = peerName := by rw [← hc1, hcp]
        have he2 : e.2 = "^16.8.0" := by rw [← hc2, hcr]
        rw [he1, hget] at hg
        have hinst : inst1 = inst := by
          exact (Option.some_inj.mp hg).symm
        rw [he2, hinst, hver, hcompat] at hcond
        simp at hcond
      · rw [if_neg hcond] at hfe
        simp at hfe
  · intro installedPackages packageName packageInfo peerName inst hmem hget hver hopt
    rw [analyzePackagePeerDeps]
    simp only
    refine List.mem_filterMap.mpr ⟨(peerName, "^16.8.0"), hmem, ?_⟩
    simp only [hget, hopt, hver, hincompat]
    simp

/-- A package requiring `react@^16.8.0` as a mandatory peer. -/
def mandatoryReactLib : InstalledPackage :=
  { version := "1.0.0",
    packageJson := { version := "1.0.0",
                     peerDependencies := [("react", "^16.8.0")],
                     peerDependenciesMeta := [] } }

/-- The installed tree pairing the mandatory requirer with `react@17.0.0`. -/
def installedMandatoryConflict : List (String × InstalledPackage) :=
  [("react", reactInstalled17), ("my-lib", mandatoryReactLib)]

/-- C4 witness: the conflict record for the mandatory requirement against
`react@17.0.0` is emitted at the concrete instance. -/
theorem C4_caret_compatibility_and_conflict_witness :
    ({ package := "my-lib", peerDependency := "react", required := "^16.8.0",
       installed := "17.0.0", severity := "high" } : PeerConflict)
      ∈ (analyzePackagePeerDeps installedMandatoryConflict "my-lib" mandatoryReactLib).conflicts :=
  C4_caret_compatibility_and_conflict.2.2.2 installedMandatoryConflict "my-lib"
    mandatoryReactLib "react" reactInstalled17 (by decide) (by decide) rfl (by decide)

/-! ## Claim C7 -/

/-- C7: for every installed package and every peer requirement on a peer
name that is not installed anywhere in the tree: when the requirement is not
marked optional, `analyzePackagePeerDeps` records a peer-missing issue
naming the requiring package and carrying the required range; when it is
marked optional, no missing issue is recorded for that peer name. -/
theorem C7_missing_peer_emitted_unless_optional
    (installedPackages : List (String × InstalledPackage))
    (packageName : String) (packageInfo : InstalledPackage)
    (peerName range : String)
    (hmem : (peerName, range) ∈ packageInfo.packageJson.peerDependencies)
    (hnotinst : mapGet installedPackages peerName = none) :
    (peerIsOptional packageInfo.packageJson peerName = false →
      ({ package := packageName, peerDependency := peerName,
         requiredVersion := range, severity := "high" } : PeerMissing)
        ∈ (analyzePackagePeerDeps installedPackages packageName packageInfo).missing) ∧
    (peerIsOptional packageInfo.packageJson peerName = true →
      ∀ m ∈ (analyzePackagePeerDeps installedPackages packageName packageInfo).missing,
        m.peerDependency ≠ peerName) := by
  constructor
  · intro hopt
    rw [analyzePackagePeerDeps]
    simp only
    refine List.mem_filterMap.mpr ⟨(peerName, range), hmem, ?_⟩
    simp only [hnotinst, hopt]
    simp
  · intro hopt m hm heq
    rw [analyzePackagePeerDeps] at hm
    simp only at hm
    obtain ⟨e, he, hfe⟩ := List.mem_filterMap.mp hm
    cases hg : mapGet installedPackages e.1 with
    | some inst1 => rw [hg] at hfe; simp at hfe
    | none =>
      rw [hg] at hfe
      simp only at hfe
      by_cases hio : peerIsOptional packageInfo.packageJson e.1
      · rw [if_pos hio] at hfe
        simp at hfe
      · rw [if_neg hio] at hfe
        have hmp : m.peerDependency = e.1 := by rw [← Option.some_inj.mp hfe]
        rw [heq] at hmp
        rw [← hmp] at hio
        exact hio hopt

/-- C7 witness: with nothing installed, the mandatory `react` requirement of
`my-lib` produces the missing record, and an optional requirement produces
none. -/
theorem C7_missing_peer_emitted_unless_optional_witness :
    ({ package := "my-lib", peerDependency := "react",
       requiredVersion := "^16.8.0", severity := "high" } : PeerMissing)
      ∈ (analyzePackagePeerDeps [] "my-lib" mandatoryReactLib).missing ∧
    (∀ m ∈ (analyzePackagePeerDeps [] "my-lib" optionalReactLib).missing,
      m.peerDependency ≠ "react") :=
  ⟨(C7_missing_peer_emitted_unless_optional [] "my-lib" mandatoryReactLib "react"
      "^16.8.0" (by decide) (by decide)).1 (by decide),
   (C7_missing_peer_emitted_unless_optional [] "my-lib" optionalReactLib "react"
      "^16.8.0" (by decide) (by decide)).2 (by decide)⟩
